import Mathlib

/-!
Shallow embedding of `torchhydro/datasets/data_sets.py` and proofs about it.

Conventions used throughout:
* An `xr.DataArray` with a basin, a daily time and a variable axis is embedded
  as a function `Fin nb → Fin nt → Fin nv → Option ℚ`; `none` models NaN.
  The time coordinate of index `t` is embedded as `(t : ℚ)` (the spec's data
  model fixes timestamps to a contiguous, regularly-spaced daily sequence, so
  the coordinate is an affine image of the index and linear interpolation is
  invariant under that reparametrisation).
* Python exceptions are modelled with `Except String` / `Option`.
-/

namespace TorchHydro

/-- A labeled 3-D array (basin × time × variable); `none` models NaN.  This is
the shape `_fill_gaps_da` iterates: its first axis (`da.shape[0]`, `da[i]`) is
the basin axis per the function's own comments, the `"time"` axis is second and
the `"variable"` axis third. -/
abbrev DArr (nb nt nv : ℕ) := Fin nb → Fin nt → Fin nv → Option ℚ

/-- The straight line through points `p` and `q` evaluated at `x` (degenerate
when the two coordinates coincide). -/
def interpSegment (p q : ℚ × ℚ) (x : ℚ) : ℚ :=
  if q.1 = p.1 then p.2 else p.2 + (q.2 - p.2) * (x - p.1) / (q.1 - p.1)

/-- Piecewise-linear interpolation with boundary extrapolation through the
known points `pts` (ascending coordinates), evaluated at `x`: the embedding of
xarray's `interpolate_na(dim="time", fill_value="extrapolate")` (scipy linear
interp1d) on one basin/variable series.  Beyond the ends the first/last segment
is extended; with fewer than two known points interp1d cannot be constructed,
so no value is produced. -/
def linInterpAt : List (ℚ × ℚ) → ℚ → Option ℚ
  | [], _ => none
  | [_], _ => none
  | p :: q :: rest, x =>
    if x ≤ q.1 then some (interpSegment p q x)
    else
      match rest with
      | [] => some (interpSegment p q x)
      | r :: rs => linInterpAt (q :: r :: rs) x

/-- The known (time-coordinate, value) points of basin `b`, variable `v` over
the whole time axis. -/
def knownPts {nb nt nv : ℕ} (da : DArr nb nt nv) (b : Fin nb) (v : Fin nv) :
    List (ℚ × ℚ) :=
  (List.finRange nt).filterMap (fun t => (da b t v).map (fun x => ((t.val : ℚ), x)))

/-- Policy `"interpolate"`: for each basin independently,
`da[i] = da[i].interpolate_na(dim="time", fill_value="extrapolate")`; existing
values are kept, NaNs are replaced by the interpolated value at their time
coordinate. -/
def interpFill {nb nt nv : ℕ} (da : DArr nb nt nv) : DArr nb nt nv :=
  fun b t v =>
    match da b t v with
    | some x => some x
    | none => linInterpAt (knownPts da b v) (t.val : ℚ)

/-- Cross-basin mean of variable `v` at time `t` ignoring missing values;
`none` when every basin is missing (xarray's skip-NaN `mean` of an all-NaN
slice is NaN). -/
def meanVal {nb nt nv : ℕ} (da : DArr nb nt nv) (t : Fin nt) (v : Fin nv) :
    Option ℚ :=
  let vals := (List.finRange nb).filterMap (fun b => da b t v)
  if vals.length = 0 then none else some (vals.sum / (vals.length : ℚ))

/-- Policy `"mean"`: per variable, `fillna` with the cross-basin mean at each
time step.  `fillna` keeps present values and, when the mean itself is NaN
(all basins missing), leaves the NaN in place. -/
def meanFill {nb nt nv : ℕ} (da : DArr nb nt nv) : DArr nb nt nv :=
  fun b t v =>
    match da b t v with
    | some x => some x
    | none => meanVal da t v

/-- The union over basins of each basin's non-missing time indices, in
ascending order: the embedding of concatenating `np.where(~np.isnan(da[i]))[0]`
over all `i` and passing the result through `np.unique` (sorted, deduplicated).
A time index is in a basin's set when any variable is non-missing there, since
`np.where` on the 2-D (time × variable) slice lists the row index once per
non-NaN entry. -/
def unionIdx {nb nt nv : ℕ} (da : DArr nb nt nv) : List (Fin nt) :=
  (List.finRange nt).filter (fun t =>
    (List.finRange nb).any (fun b =>
      (List.finRange nv).any (fun v => (da b t v).isSome)))

/-- Known (time-coordinate, value) points of basin `b`, variable `v` inside
the restricted sub-series `da[i][non_nan_idx]` (positional selection keeps the
original time coordinates). -/
def restrictedPts {nb nt nv : ℕ} (da : DArr nb nt nv) (b : Fin nb) (v : Fin nv) :
    List (ℚ × ℚ) :=
  (unionIdx da).filterMap (fun t => (da b t v).map (fun x => ((t.val : ℚ), x)))

/-- Policy `"et_ssm_ignore"`: collect every basin's non-missing index set,
union them, then per basin interpolate only within that union subset
(`da[i][non_nan_idx] = targ_i.interpolate_na(...)`).  Positions outside the
union are never written back, so they keep their original value. -/
def etSsmIgnore {nb nt nv : ℕ} (da : DArr nb nt nv) : DArr nb nt nv :=
  fun b t v =>
    if t ∈ unionIdx da then
      match da b t v with
      | some x => some x
      | none => linInterpAt (restrictedPts da b v) (t.val : ℚ)
    else da b t v

/-- Embedding of `_fill_gaps_da(da, fill_nan)`: immediately returns `da`
unchanged when the policy is unset or the array is absent, then dispatches on
the policy name in source order, raising `NotImplementedError` (modelled as
`Except.error`) on an unknown name.  The `assert isinstance(da, xr.DataArray)`
holds by typing in this embedding. -/
def fillGapsDa {nb nt nv : ℕ} (da : Option (DArr nb nt nv))
    (fillNan : Option String) : Except String (Option (DArr nb nt nv)) :=
  match fillNan, da with
  | none, _ => Except.ok da
  | _, none => Except.ok da
  | some p, some a =>
    if p = "et_ssm_ignore" then Except.ok (some (etSsmIgnore a))
    else if p = "mean" then Except.ok (some (meanFill a))
    else if p = "interpolate" then Except.ok (some (interpFill a))
    else Except.error ("fill_nan " ++ p ++ " not implemented")

/-- Concrete 2-basin × 3-step × 1-variable array whose middle time step is
missing in every basin. -/
def daAllMiss : DArr 2 3 1 :=
  fun b t _ => if t.val = 1 then none else some ((b.val : ℚ) + (t.val : ℚ))

/-- Concrete 2-basin × 2-step × 1-variable array with one missing entry but at
least one present basin at every time/variable slot. -/
def daOneMiss : DArr 2 2 1 :=
  fun b t _ => if b.val = 0 ∧ t.val = 0 then none else some ((b.val : ℚ) + (t.val : ℚ) + 1)

/-- Claim C4: for every time index `t` missing (NaN) in every basin, the
`et_ssm_ignore` policy leaves the value at `t` unchanged — still missing — in
every basin, because interpolation is restricted to the union of the basins'
non-missing index sets and `t` is outside that union. -/
theorem c4_et_ssm_ignore_never_fills_outside_union {nb nt nv : ℕ}
    (da : DArr nb nt nv) (t : Fin nt) (h : ∀ b v, da b t v = none) :
    ∀ b v, etSsmIgnore da b t v = none := by
  intro b v
  have ht : t ∉ unionIdx da := by
    intro hmem
    have hp := (List.mem_filter.mp hmem).2
    obtain ⟨b', -, hb'⟩ := List.any_eq_true.mp hp
    obtain ⟨v', -, hv'⟩ := List.any_eq_true.mp hb'
    rw [h b' v'] at hv'
    simp at hv'
  simp only [etSsmIgnore, if_neg ht]
  exact h b v

/-- Witness for C4 at a concrete input. -/
theorem c4_witness :
    (∀ b v, daAllMiss b 1 v = none) ∧
      (∀ b v, etSsmIgnore daAllMiss b 1 v = none) :=
  ⟨by decide, c4_et_ssm_ignore_never_fills_outside_union daAllMiss 1 (by decide)⟩

/-- Claim C5: provided every time/variable slot has at least one non-missing
basin, a single application of the `mean` policy leaves no missing values, and
applying the policy twice equals applying it once. -/
theorem c5_mean_fill_idempotent {nb nt nv : ℕ} (da : DArr nb nt nv)
    (h : ∀ t v, ∃ b, (da b t v).isSome) :
    (∀ b t v, (meanFill da b t v).isSome) ∧ meanFill (meanFill da) = meanFill da := by
  have h1 : ∀ b t v, (meanFill da b t v).isSome := by
    intro b t v
    unfold meanFill
    cases hbe : da b t v with
    | some x => simp
    | none =>
      simp only [meanVal]
      have hne : ((List.finRange nb).filterMap (fun b => da b t v)).length ≠ 0 := by
        intro hlen
        obtain ⟨b', hb'⟩ := h t v
        have hnil : ∀ a ∈ List.finRange nb, da a t v = none := by
          rw [← List.filterMap_eq_nil_iff]
          exact List.length_eq_zero.mp hlen
        rw [hnil b' (List.mem_finRange b')] at hb'
        simp at hb'
      simp [hne]
  refine ⟨h1, ?_⟩
  funext b t v
  have hs := h1 b t v
  cases hm : meanFill da b t v with
  | none => rw [hm] at hs; simp at hs
  | some x => simp only [meanFill] at hm ⊢; rw [hm]

/-- Witness for C5 at a concrete input. -/
theorem c5_witness :
    (∀ b t v, (meanFill daOneMiss b t v).isSome) ∧
      meanFill (meanFill daOneMiss) = meanFill daOneMiss :=
  c5_mean_fill_idempotent daOneMiss (by decide)

/-- Claim C7: `_fill_gaps_da` fails with a "not implemented" error iff the
policy name is set, the array is present, and the name is none of
`interpolate`, `mean`, `et_ssm_ignore`; when the policy is unset or the array
is absent it returns the array unchanged. -/
theorem c7_fill_gaps_dispatch {nb nt nv : ℕ} (da : Option (DArr nb nt nv))
    (fillNan : Option String) :
    ((∃ msg, fillGapsDa da fillNan = Except.error msg) ↔
      (∃ p, fillNan = some p ∧ da ≠ none ∧
        p ≠ "interpolate" ∧ p ≠ "mean" ∧ p ≠ "et_ssm_ignore"))
    ∧ ((fillNan = none ∨ da = none) → fillGapsDa da fillNan = Except.ok da) := by
  constructor
  · cases fillNan with
    | none => simp [fillGapsDa]
    | some p =>
      cases da with
      | none => simp [fillGapsDa]
      | some a =>
        by_cases h1 : p = "et_ssm_ignore"
        · simp [fillGapsDa, h1]
        · by_cases h2 : p = "mean"
          · simp [fillGapsDa, h1, h2]
          · by_cases h3 : p = "interpolate"
            · simp [fillGapsDa, h1, h2, h3]
            · simp [fillGapsDa, h1, h2, h3]
  · rintro (rfl | rfl)
    · simp [fillGapsDa]
    · cases fillNan <;> simp [fillGapsDa]

/-- Witness for C7 at concrete inputs: an unknown policy on a present array
errors; an unset policy is a no-op. -/
theorem c7_witness :
    (∃ msg, @fillGapsDa 1 1 1 (some (fun _ _ _ => some 0)) (some "bogus") =
      Except.error msg)
    ∧ @fillGapsDa 1 1 1 (some (fun _ _ _ => some 0)) none =
      Except.ok (some (fun _ _ _ => some 0)) :=
  ⟨(c7_fill_gaps_dispatch (some (fun _ _ _ => some 0)) (some "bogus")).1.mpr
      ⟨"bogus", rfl, by simp, by decide, by decide, by decide⟩,
    (c7_fill_gaps_dispatch (some (fun _ _ _ => some 0)) none).2 (Or.inl rfl)⟩

/-! ## WindowIndexBuilder: `BaseDataset._create_lookup_table` -/

/-- Embedding of `BaseDataset._create_lookup_table`.  `dates` are the time
coordinates of `y` (distinct, ordered daily timestamps per the data model,
embedded as integers).  The body extends, per basin in list order, the pairs
`(basin, dates[f])` for `f in range(warmup_length, time_length)` subject to
`f < time_length - rho + 1` (Python `int` arithmetic, hence compared in ℤ);
`dict(enumerate(lookup))` then assigns ids 0,1,2,… in exactly that order,
embedded here as list positions, with `num_samples` the list length. -/
def createLookupTable (basins : List String) (dates : List ℤ)
    (warmupLength rho : ℕ) : List (String × ℤ) :=
  basins.flatMap (fun basin =>
    ((List.range' warmupLength (dates.length - warmupLength)).filter
        (fun (f : ℕ) => decide ((f : ℤ) < (dates.length : ℤ) - (rho : ℤ) + 1))).map
      (fun (f : ℕ) => (basin, dates.getD f 0)))

/-- The number of qualifying offsets per basin: the offsets
`warmup_length ≤ f < time_length` with `f < time_length - rho + 1` form the
contiguous block `range' warmup_length` of this count. -/
def validOffsetCount (timeLength warmupLength rho : ℕ) : ℕ :=
  min (timeLength - warmupLength)
    ((timeLength : ℤ) - (rho : ℤ) + 1 - (warmupLength : ℤ)).toNat

theorem filter_range'_lt (M : ℤ) :
    ∀ (n s : ℕ), (List.range' s n).filter (fun (f : ℕ) => decide ((f : ℤ) < M)) =
      List.range' s (min n (M - (s : ℤ)).toNat) := by
  intro n
  induction n with
  | zero => intro s; simp
  | succ n ih =>
    intro s
    rw [List.range'_succ, List.filter_cons]
    by_cases hs : (s : ℤ) < M
    · have h1 : min (n + 1) (M - (s : ℤ)).toNat =
          min n (M - (((s + 1 : ℕ)) : ℤ)).toNat + 1 := by push_cast; omega
      rw [decide_eq_true hs, if_pos rfl, ih (s + 1), h1, List.range'_succ]
    · have h1 : min (n + 1) (M - (s : ℤ)).toNat = 0 := by omega
      have h2 : min n (M - (((s + 1 : ℕ)) : ℤ)).toNat = 0 := by push_cast; omega
      rw [decide_eq_false hs, if_neg (by simp), ih (s + 1), h1, h2]
      rfl

theorem length_flatMap_const {α β : Type} (g : α → List β) (c : ℕ)
    (hg : ∀ a, (g a).length = c) :
    ∀ l : List α, (l.flatMap g).length = l.length * c := by
  intro l
  induction l with
  | nil => simp
  | cons a tl ih =>
    simp only [List.flatMap_cons, List.length_append, List.length_cons, ih, hg,
      Nat.succ_mul, Nat.add_comm]

theorem flatMap_getElem?_const {α β : Type} (g : α → List β) (c : ℕ)
    (hg : ∀ a, (g a).length = c) :
    ∀ (l : List α) (bi fi : ℕ), fi < c →
      (l.flatMap g)[bi * c + fi]? = l[bi]?.bind (fun a => (g a)[fi]?) := by
  intro l
  induction l with
  | nil => intro bi fi _; simp
  | cons a tl ih =>
    intro bi fi hfi
    cases bi with
    | zero =>
      rw [List.flatMap_cons]
      simp only [Nat.zero_mul, Nat.zero_add]
      rw [List.getElem?_append, if_pos (by rw [hg]; exact hfi)]
      simp
    | succ bi =>
      rw [List.flatMap_cons]
      have hmul : (bi + 1) * c = bi * c + c := Nat.succ_mul bi c
      have hle : (g a).length ≤ (bi + 1) * c + fi := by rw [hg]; omega
      rw [List.getElem?_append_right hle]
      have harith : (bi + 1) * c + fi - (g a).length = bi * c + fi := by
        rw [hg]; omega
      rw [harith, ih bi fi hfi]
      simp

theorem createLookupTable_eq_flatMap (basins : List String) (dates : List ℤ)
    (warmupLength rho : ℕ) :
    createLookupTable basins dates warmupLength rho =
      basins.flatMap (fun basin =>
        (List.range' warmupLength
            (validOffsetCount dates.length warmupLength rho)).map
          (fun (f : ℕ) => (basin, dates.getD f 0))) := by
  unfold createLookupTable validOffsetCount
  simp only [filter_range'_lt]

/-- Claim C1: for every basin `b` and offset `f` into the time axis, the
lookup table contains `(b, dates[f])` iff `warmup_length ≤ f` and
`f < time_length − rho + 1`; its size is the exact count of such pairs
(`#basins × #qualifying offsets`); and ids — list positions after
`dict(enumerate(·))` — are assigned densely from 0 in basin-major,
time-ascending order: the id `bi * cnt + fi` holds basin `bi`'s `fi`-th
qualifying anchor. -/
theorem c1_lookup_table_correct (basins : List String) (dates : List ℤ)
    (warmupLength rho : ℕ) (hnd : dates.Nodup) :
    (∀ b ∈ basins, ∀ f, f < dates.length →
        ((b, dates.getD f 0) ∈ createLookupTable basins dates warmupLength rho ↔
          (warmupLength ≤ f ∧ (f : ℤ) < (dates.length : ℤ) - (rho : ℤ) + 1)))
    ∧ (createLookupTable basins dates warmupLength rho).length =
        basins.length * validOffsetCount dates.length warmupLength rho
    ∧ (∀ bi fi, bi < basins.length →
        fi < validOffsetCount dates.length warmupLength rho →
        (createLookupTable basins dates warmupLength rho)[bi *
            validOffsetCount dates.length warmupLength rho + fi]? =
          some (basins.getD bi "", dates.getD (warmupLength + fi) 0)) := by
  have key := createLookupTable_eq_flatMap basins dates warmupLength rho
  have hcnt : validOffsetCount dates.length warmupLength rho =
      min (dates.length - warmupLength)
        ((dates.length : ℤ) - (rho : ℤ) + 1 - (warmupLength : ℤ)).toNat := rfl
  refine ⟨?_, ?_, ?_⟩
  · intro b hb f hf
    rw [key]
    constructor
    · intro hmem
      obtain ⟨b', hb', hmem'⟩ := List.mem_flatMap.mp hmem
      obtain ⟨f', hf', heq⟩ := List.mem_map.mp hmem'
      have heqd : dates.getD f' 0 = dates.getD f 0 := congrArg Prod.snd heq
      rw [List.mem_range'_1] at hf'
      have hf'len : f' < dates.length := by omega
      have hff : f' = f := by
        rw [List.getD_eq_getElem dates 0 hf'len,
          List.getD_eq_getElem dates 0 hf] at heqd
        exact (hnd.getElem_inj_iff).mp heqd
      omega
    · rintro ⟨hw, hlt⟩
      apply List.mem_flatMap.mpr
      refine ⟨b, hb, List.mem_map.mpr ⟨f, ?_, rfl⟩⟩
      rw [List.mem_range'_1]
      omega
  · rw [key]
    exact length_flatMap_const _ _ (fun a => by simp) basins
  · intro bi fi hbi hfi
    rw [key, flatMap_getElem?_const _ (validOffsetCount dates.length warmupLength rho)
      (fun a => by simp) basins bi fi hfi]
    rw [List.getElem?_eq_getElem hbi]
    rw [List.getD_eq_getElem basins "" hbi]
    simp [List.getElem?_range' _ _ hfi]

/-- Witness for C1 at a concrete input: 2 basins, 5 dates, warmup 1, rho 2. -/
theorem c1_witness :
    (("a", ([100, 101, 102, 103, 104] : List ℤ).getD 2 0) ∈
        createLookupTable ["a", "b"] [100, 101, 102, 103, 104] 1 2 ↔
      (1 ≤ 2 ∧ (2 : ℤ) < (([100, 101, 102, 103, 104] : List ℤ).length : ℤ) - (2 : ℤ) + 1))
    ∧ (createLookupTable ["a", "b"] [100, 101, 102, 103, 104] 1 2).length =
        2 * validOffsetCount 5 1 2 := by
  have h := c1_lookup_table_correct ["a", "b"] [100, 101, 102, 103, 104] 1 2 (by decide)
  exact ⟨h.1 "a" (by simp) 2 (by simp), h.2.1⟩

/-! ## DatasetCore state, base sample extraction, and length variants -/

/-- The state a `BaseDataset` holds after `_load_data`: stored arrays, lookup
table, and windowing configuration.  `xval`/`yval` give the
dynamic-input/target variable row of a basin at a daily time coordinate
(embedded as ℤ); `cval` is the static-attribute table when the attribute
stream exists (`self.c is not None`). -/
structure DatasetState where
  basins : List String
  trainMode : Bool
  rho : ℕ
  warmupLength : ℕ
  lookupTable : List (String × ℤ)
  numSamples : ℕ
  xval : String → ℤ → List ℚ
  yval : String → ℤ → List ℚ
  cval : Option (String → List ℚ)

/-- The x slice of `__getitem__`:
`x.sel(basin, time=slice(time - warmup, time + (rho - 1) days)).to_numpy().T`,
the inclusive daily label slice transposed so time leads — `warmup_length + rho`
rows of dynamic-variable values (the generic-unit `np.timedelta64(warmup_length)`
is read in the day unit the slice end makes explicit). -/
def xWindow (st : DatasetState) (basin : String) (anchor : ℤ) : List (List ℚ) :=
  (List.range (st.warmupLength + st.rho)).map
    (fun j => st.xval basin (anchor - (st.warmupLength : ℤ) + (j : ℤ)))

/-- The y slice of `__getitem__`:
`y.sel(basin, time=slice(time, time + (rho - 1) days)).to_numpy().T`. -/
def yWindow (st : DatasetState) (basin : String) (anchor : ℤ) : List (List ℚ) :=
  (List.range st.rho).map (fun j => st.yval basin (anchor + (j : ℤ)))

/-- Embedding of `np.tile(c, (n, 1))`: `n` stacked copies of the attribute
row. -/
def npTile (c : List ℚ) (n : ℕ) : List (List ℚ) :=
  (List.range n).map (fun _ => c)

/-- Embedding of `np.concatenate((A, B), axis=1)`: raises ValueError unless
the blocks have the same number of rows. -/
def npConcatCols (A B : List (List ℚ)) : Option (List (List ℚ)) :=
  if A.length = B.length then some (List.zipWith (· ++ ·) A B) else none

/-- Embedding of `BaseDataset.__getitem__`: look up `(basin, time)` for the
sample id, slice the x window, and — when
`self.c is not None and self.c.shape[-1] > 0` — tile the basin's attribute
vector `seq_length` (= `self.rho`) times and concatenate as extra columns,
then slice the y window.  `none` models a raised exception (id outside the
table, or shape-mismatched concatenate). -/
def baseGetitem (st : DatasetState) (item : ℕ) :
    Option (List (List ℚ) × List (List ℚ)) :=
  match st.lookupTable[item]? with
  | none => none
  | some (basin, anchor) =>
    let xw := xWindow st basin anchor
    let yw := yWindow st basin anchor
    match st.cval with
    | none => some (xw, yw)
    | some cfn =>
      if (cfn basin).length = 0 then some (xw, yw)
      else
        match npConcatCols xw (npTile (cfn basin) st.rho) with
        | none => none
        | some xc => some (xc, yw)

/-- A minimal configured dataset with warmup_length = 1, rho = 2, one basin,
one dynamic variable, one target variable and one static attribute. -/
def stWarmup : DatasetState :=
  ⟨["b1"], true, 2, 1, [("b1", 10)], 1,
    fun _ _ => [1], fun _ _ => [2], some (fun _ => [5])⟩

/-- Claim C2, evaluated at its failing input (code bug): with
warmup_length = 1, rho = 2 and a static attribute present, the x slice has
warmup_length + rho = 3 rows while `np.tile(c, (seq_length, 1))` produces only
rho = 2 rows, so `np.concatenate(..., axis=1)` fails instead of returning the
(warmup_length + rho)-row window with the attributes tiled across all
warmup_length + rho steps that the claim describes. -/
theorem c2_failing_input :
    baseGetitem stWarmup 0 = none ∧
      (xWindow stWarmup "b1" 10).length = 3 ∧
      (npTile [(5 : ℚ)] stWarmup.rho).length = 2 := by
  refine ⟨?_, rfl, rfl⟩
  rfl

/-- The method `__getitem__` as a state transformer.  The body only reads
`self.lookup_table`, `self.x`, `self.c`, `self.y`, `self.rho` and
`self.warmup_length` and assigns to none of them, so its embedding returns the
dataset state unchanged alongside the extracted sample. -/
def baseGetitemStep (st : DatasetState) (item : ℕ) :
    Option (List (List ℚ) × List (List ℚ)) × DatasetState :=
  (baseGetitem st item, st)

/-- Claim C9: base sample extraction leaves the stored tensors x, y, c and the
lookup table unchanged — the dataset state after `sample(id)` equals the state
before, field by field. -/
theorem c9_getitem_preserves_state (st : DatasetState) (item : ℕ) :
    (baseGetitemStep st item).2 = st ∧
      (baseGetitemStep st item).2.xval = st.xval ∧
      (baseGetitemStep st item).2.yval = st.yval ∧
      (baseGetitemStep st item).2.cval = st.cval ∧
      (baseGetitemStep st item).2.lookupTable = st.lookupTable :=
  ⟨rfl, rfl, rfl, rfl, rfl⟩

/-- Embedding of `BasinFlowDataset.__len__`:
`self.num_samples if self.train_mode else len(self.t_s_dict["sites_id"])`. -/
def basinFlowLen (st : DatasetState) : ℕ :=
  if st.trainMode then st.numSamples else st.basins.length

/-- Claim C6: in any state produced by `_create_lookup_table` (which stores
`num_samples = len(lookup_table)`), `BasinFlowDataset.__len__` equals the
number of basins in evaluation mode — whatever the lookup table holds — and
the lookup-table size in training mode. -/
theorem c6_basin_flow_len (st : DatasetState)
    (hwf : st.numSamples = st.lookupTable.length) :
    (st.trainMode = false → basinFlowLen st = st.basins.length) ∧
      (st.trainMode = true → basinFlowLen st = st.lookupTable.length) := by
  unfold basinFlowLen
  constructor
  · intro h; rw [h]; simp
  · intro h; rw [h, if_pos rfl, hwf]

/-- Evaluation-mode dataset whose lookup table (1 entry) differs from its
basin count (3). -/
def stEvalA : DatasetState :=
  ⟨["b1", "b2", "b3"], false, 2, 0, [("b1", 0)], 1,
    fun _ _ => [], fun _ _ => [], none⟩

/-- The same state in training mode. -/
def stTrainA : DatasetState :=
  ⟨["b1", "b2", "b3"], true, 2, 0, [("b1", 0)], 1,
    fun _ _ => [], fun _ _ => [], none⟩

/-- Witness for C6: evaluation-mode length is the basin count (3, although the
table has 1 entry); training-mode length is the table size. -/
theorem c6_witness :
    basinFlowLen stEvalA = stEvalA.basins.length ∧
      basinFlowLen stTrainA = stTrainA.lookupTable.length :=
  ⟨(c6_basin_flow_len stEvalA rfl).1 rfl, (c6_basin_flow_len stTrainA rfl).2 rfl⟩

/-! ## Construction-time validation (`BaseDataset.__init__`) -/

/-- The external data-source calls `_load_data` makes. -/
inductive DsCall where
  | readTsTarget
  | readTsForcing
  | readAttr
  | readArea
deriving DecidableEq

/-- The data-source calls `_load_data` performs, in source order:
`read_ts_xrdataset` for targets, `read_ts_xrdataset` for forcings,
`read_attr_xrdataset`, then `read_area` when the target stream is present
(`unify_streamflow_unit`). -/
def loadDataCalls (flowPresent : Bool) : List DsCall :=
  [DsCall.readTsTarget, DsCall.readTsForcing, DsCall.readAttr] ++
    (if flowPresent then [DsCall.readArea] else [])

/-- Embedding of `BaseDataset.__init__` as a call trace: the constructor
validates `loader_type ∈ set("train","valid","test")` and raises ValueError
otherwise; only on the valid branch does it reach `self._load_data()` and its
data-source calls.  The result pairs the data-source calls actually made with
the construction outcome. -/
def baseInitTrace (loaderType : String) (flowPresent : Bool) :
    List DsCall × Except String Unit :=
  if loaderType = "train" ∨ loaderType = "valid" ∨ loaderType = "test" then
    (loadDataCalls flowPresent, Except.ok ())
  else
    ([], Except.error "'loader_type' must be one of 'train', 'valid' or 'test' ")

/-- Claim C8: for every loader_type outside train/valid/test, construction
fails with the validation error and makes no data-source call at all. -/
theorem c8_invalid_loader_type (loaderType : String) (flowPresent : Bool)
    (h1 : loaderType ≠ "train") (h2 : loaderType ≠ "valid")
    (h3 : loaderType ≠ "test") :
    (baseInitTrace loaderType flowPresent).1 = [] ∧
      (baseInitTrace loaderType flowPresent).2 =
        Except.error "'loader_type' must be one of 'train', 'valid' or 'test' " := by
  unfold baseInitTrace
  rw [if_neg (by simp [h1, h2, h3])]
  exact ⟨rfl, rfl⟩

/-- Witness for C8 at loader_type "bogus". -/
theorem c8_witness :
    (baseInitTrace "bogus" true).1 = [] ∧
      (baseInitTrace "bogus" true).2 =
        Except.error "'loader_type' must be one of 'train', 'valid' or 'test' " :=
  c8_invalid_loader_type "bogus" true (by decide) (by decide) (by decide)

/-! ## `KuaiDataset.__len__` (StochasticEpoch training-length heuristic) -/

/-- Fuel-indexed embedding of the shrink loop
`while batch_size * rho >= ngrid * nt: batch_size = int(batch_size / 10)`
(`int(b / 10)` floors a non-negative int).  `none` means the fuel ran out
before the condition became false. -/
def kuaiShrinkFuel (ngrid nt rho : ℕ) : ℕ → ℕ → Option ℕ
  | 0, b => if ngrid * nt ≤ b * rho then none else some b
  | fuel + 1, b =>
    if ngrid * nt ≤ b * rho then kuaiShrinkFuel ngrid nt rho fuel (b / 10)
    else some b

/-- The clamp `batch_size = max(batch_size, 1)` applied after the loop,
producing the batch size the n_iter computation uses. -/
def kuaiBatchUsed (b : ℕ) : ℕ := max b 1

/-- Embedding of
`n_iter_ep = int(np.ceil(np.log(0.01) / np.log(1 - batch_size * rho / ngrid / (nt - warmup_length))))`
over ℝ with the source's division order; for the positive values at stake
`int(np.ceil(v))` is the integer ceiling. -/
noncomputable def kuaiNIter (ngrid nt rho warmupLength b : ℕ) : ℤ :=
  ⌈Real.log (1 / 100) /
    Real.log (1 - (b : ℝ) * (rho : ℝ) / (ngrid : ℝ) /
      ((nt : ℝ) - (warmupLength : ℝ)))⌉

theorem kuaiShrinkFuel_mono (ngrid nt rho : ℕ) :
    ∀ (fuel fuel' b r : ℕ), fuel ≤ fuel' →
      kuaiShrinkFuel ngrid nt rho fuel b = some r →
      kuaiShrinkFuel ngrid nt rho fuel' b = some r := by
  intro fuel
  induction fuel with
  | zero =>
    intro fuel' b r _ h
    unfold kuaiShrinkFuel at h
    by_cases hc : ngrid * nt ≤ b * rho
    · rw [if_pos hc] at h; exact absurd h (by simp)
    · rw [if_neg hc] at h
      cases fuel' with
      | zero => unfold kuaiShrinkFuel; rw [if_neg hc]; exact h
      | succ f' => unfold kuaiShrinkFuel; rw [if_neg hc]; exact h
  | succ fuel ih =>
    intro fuel' b r hle h
    unfold kuaiShrinkFuel at h
    by_cases hc : ngrid * nt ≤ b * rho
    · rw [if_pos hc] at h
      cases fuel' with
      | zero => omega
      | succ f' =>
        unfold kuaiShrinkFuel
        rw [if_pos hc]
        exact ih f' (b / 10) r (by omega) h
    · rw [if_neg hc] at h
      cases fuel' with
      | zero => unfold kuaiShrinkFuel; rw [if_neg hc]; exact h
      | succ f' => unfold kuaiShrinkFuel; rw [if_neg hc]; exact h

theorem kuaiShrinkFuel_terminates (ngrid nt rho : ℕ) (h : 1 ≤ ngrid * nt) :
    ∀ b, ∃ r, kuaiShrinkFuel ngrid nt rho (b + 1) b = some r := by
  intro b
  induction b using Nat.strong_induction_on with
  | _ b ih =>
    by_cases hc : ngrid * nt ≤ b * rho
    · have hb : 1 ≤ b := by
        rcases Nat.eq_zero_or_pos b with h0 | h1
        · subst h0; rw [Nat.zero_mul] at hc; omega
        · exact h1
      have hdiv : b / 10 < b := Nat.div_lt_self hb (by norm_num)
      obtain ⟨r, hr⟩ := ih (b / 10) hdiv
      refine ⟨r, ?_⟩
      unfold kuaiShrinkFuel
      rw [if_pos hc]
      exact kuaiShrinkFuel_mono ngrid nt rho (b / 10 + 1) b (b / 10) r
        (by omega) hr
    · exact ⟨b, by unfold kuaiShrinkFuel; rw [if_neg hc]⟩

/-- Claim C10: whenever ngrid · nt ≥ 1 the shrink loop terminates (fuel
`batch_size + 1` suffices because each pass strictly decreases the batch
size), and the batch size the subsequent n_iter computation uses — the loop
result clamped by `max(batch_size, 1)` — is at least 1. -/
theorem c10_shrink_loop_terminates (ngrid nt rho b : ℕ)
    (h : 1 ≤ ngrid * nt) :
    ∃ r, kuaiShrinkFuel ngrid nt rho (b + 1) b = some r ∧
      1 ≤ kuaiBatchUsed r := by
  obtain ⟨r, hr⟩ := kuaiShrinkFuel_terminates ngrid nt rho h b
  exact ⟨r, hr, le_max_right r 1⟩

/-- Witness for C10 at a configuration the loop actually shrinks
(ngrid = 1, nt = 3, rho = 10, batch_size = 50 → 5 → 0, clamped to 1). -/
theorem c10_witness :
    ∃ r, kuaiShrinkFuel 1 3 10 51 50 = some r ∧ 1 ≤ kuaiBatchUsed r :=
  c10_shrink_loop_terminates 1 3 10 50 (by norm_num)

/-- Claim C3: for ngrid = 100, nt = 1000, rho = 10, warmup_length = 0,
batch_size = 50, the shrink loop exits immediately with batch_size 50 (so it
never produces a batch size below 1 and the clamp keeps 50), the embedded
n_iter equals the claim's ceil(ln 0.01 / ln(1 − batch·rho/(ngrid·(nt −
warmup)))) form, and n_iter is a (finite) positive integer. -/
theorem c3_kuai_heuristic_positive :
    kuaiShrinkFuel 100 1000 10 51 50 = some 50 ∧
      kuaiBatchUsed 50 = 50 ∧
      kuaiNIter 100 1000 10 0 50 =
        ⌈Real.log (1 / 100) /
          Real.log (1 - (50 : ℝ) * 10 / (100 * (1000 - 0)))⌉ ∧
      1 ≤ kuaiNIter 100 1000 10 0 50 := by
  have harg : (1 : ℝ) - ((50 : ℕ) : ℝ) * ((10 : ℕ) : ℝ) / ((100 : ℕ) : ℝ) /
      (((1000 : ℕ) : ℝ) - ((0 : ℕ) : ℝ)) = 199 / 200 := by norm_num
  have hval : kuaiNIter 100 1000 10 0 50 =
      ⌈Real.log (1 / 100) / Real.log (199 / 200)⌉ := by
    unfold kuaiNIter
    rw [harg]
  have hlog1 : Real.log (1 / 100) < 0 :=
    Real.log_neg (by norm_num) (by norm_num)
  have hlog2 : Real.log ((199 : ℝ) / 200) < 0 :=
    Real.log_neg (by norm_num) (by norm_num)
  have hpos : 0 < Real.log (1 / 100) / Real.log ((199 : ℝ) / 200) :=
    div_pos_of_neg_of_neg hlog1 hlog2
  refine ⟨by decide, rfl, ?_, ?_⟩
  · rw [hval]
    norm_num
  · rw [hval]
    have := Int.ceil_pos.mpr hpos
    omega

end TorchHydro
